import Mathlib

/-!
Verification of the todo backend (`Server/index.js`, `Server/Models/Todo.js`).

The server exposes four operations over one entity (`Todo`) and two
interchangeable stores: a MongoDB-backed persistent store (selected when a
connection is configured, schema in `Models/Todo.js`) and an in-memory
ephemeral store (a plain JS array of objects).  We shallowly embed the
request handlers: JS request-body values become an inductive `JSValue`
(so JS truthiness and `String(...)` coercion are explicit), the ephemeral
store becomes a `List Todo`, and each handler becomes a function from the
store and the request to a response paired with the new store.
-/

/-- A JavaScript value as it can appear in a parsed JSON request body or be
produced by the handlers.  `undefined` stands for an absent field. -/
inductive JSValue where
  | undefined
  | null
  | nan
  | bool (b : Bool)
  | num (n : Int)
  | str (s : String)
deriving DecidableEq, Repr

/-- JS truthiness: `undefined`, `null`, `NaN`, `false`, `0` and `""` are falsy,
everything else is truthy.  Embeds `!!v` (double negation) and bare `!v` tests. -/
def jsTruthy : JSValue → Bool
  | .undefined => false
  | .null => false
  | .nan => false
  | .bool b => b
  | .num n => n != 0
  | .str s => s != ""

/-- The JS `String(v)` coercion. -/
def jsToString : JSValue → String
  | .undefined => "undefined"
  | .null => "null"
  | .nan => "NaN"
  | .bool b => if b then "true" else "false"
  | .num n => toString n
  | .str s => s

/-- The JS `String.prototype.toLowerCase` (ASCII range, which is all the
handlers compare against). -/
def jsToLower (s : String) : String := ⟨s.data.map Char.toLower⟩

/-- Whitespace predicate used by trimming (embeds the character class of JS
`String.prototype.trim`). -/
def wsChar (c : Char) : Bool := c.isWhitespace

/-- Trim on character lists: drop leading and trailing whitespace. -/
def trimChars (l : List Char) : List Char :=
  (l.dropWhile wsChar).rdropWhile wsChar

/-- The JS `String.prototype.trim`: remove leading and trailing whitespace. -/
def jsTrim (s : String) : String := ⟨trimChars s.data⟩

/-- A record of the ephemeral in-memory store.  `POST /add` pushes
`\x7b _id, task, priority \x7d` (note: no `completed` key), and `PATCH /update`
may later add a boolean `completed` key via `Object.assign`; the possibly
absent key is modeled as an `Option Bool`. -/
structure Todo where
  _id : String
  task : String
  priority : String
  completed : Option Bool
deriving DecidableEq, Repr

/-- A record of the persistent store, as created through `TodoSchema`
(`Models/Todo.js`): `task` required, `completed : Boolean` defaulting to
`false`, `priority` an enum defaulting to `"medium"`.  All keys are present. -/
structure DbTodo where
  _id : String
  task : String
  completed : Bool
  priority : String
deriving DecidableEq, Repr

/-- The priority enum of `TodoSchema`, also inlined in both handlers as
`[low, medium, high]`. -/
def priorityEnum : List String := ["low", "medium", "high"]

/-- Priority normalization of `POST /add` (index.js lines 52-53):
`incoming = priority === undefined ? undefined : String(priority).toLowerCase()`
then `pr = (incoming && enum.includes(incoming)) ? incoming : medium`. -/
def addPriority (priority : JSValue) : String :=
  match priority with
  | .undefined => "medium"
  | v =>
    let incoming := jsToLower (jsToString v)
    if incoming != "" && priorityEnum.contains incoming then incoming else "medium"

/-- Response of `POST /add`: either 400 with an error message, or 200 with the
created record (ephemeral shape). -/
inductive AddResult where
  | badRequest (error : String)
  | ok (todo : Todo)
deriving DecidableEq, Repr

/-- The `POST /add` handler on the ephemeral store (index.js lines 47-68,
`useDb = false` branch).  `now` is the value of `Date.now()` at the request.
Guard: `if (!task || !String(task).trim()) return 400`; then
`newTodo = \x7b _id: String(Date.now()), task: String(task).trim(), priority: pr \x7d`
is pushed. -/
def postAdd (store : List Todo) (now : Nat) (task priority : JSValue) :
    AddResult × List Todo :=
  if !jsTruthy task || jsTrim (jsToString task) == "" then
    (.badRequest "task is required", store)
  else
    let newTodo : Todo :=
      { _id := toString now, task := jsTrim (jsToString task),
        priority := addPriority priority, completed := none }
    (.ok newTodo, store ++ [newTodo])

/-- Response of `POST /add` on the persistent store. -/
inductive AddDbResult where
  | badRequest (error : String)
  | ok (todo : DbTodo)
deriving DecidableEq, Repr

/-- The `POST /add` handler on the persistent store (index.js lines 47-68,
`useDb = true` branch): same guard and normalization, then
`TodoModel.create(\x7b task, priority \x7d)` — which applies the schema default
`completed = false` and the database-generated id `newId` — followed by a
re-fetch `TodoModel.findById(created._id)`; the fetched record is returned
when found, the created one otherwise. -/
def postAddDb (db : List DbTodo) (newId : String) (task priority : JSValue) :
    AddDbResult × List DbTodo :=
  if !jsTruthy task || jsTrim (jsToString task) == "" then
    (.badRequest "task is required", db)
  else
    let created : DbTodo :=
      { _id := newId, task := jsTrim (jsToString task),
        completed := false, priority := addPriority priority }
    let db' := db ++ [created]
    let fetched := db'.find? (fun t => t._id == newId)
    match fetched with
    | some f => (.ok f, db')
    | none => (.ok created, db')

/-- Response of `DELETE /delete/:id`. -/
inductive DeleteResult where
  | badRequest (error : String)
  | notFound
  | success
deriving DecidableEq, Repr

/-- The `DELETE /delete/:id` handler on the ephemeral store (index.js lines
72-88): `if (!id) return 400`; keep the todos with
`t._id !== id && String(t._id) !== String(id)`; 404 when the length did not
change, else `\x7b success: true \x7d`. -/
def deleteTodo (store : List Todo) (id : String) : DeleteResult × List Todo :=
  if id == "" then
    (.badRequest "id required", store)
  else
    let after := store.filter (fun t => t._id != id && toString t._id != toString id)
    if after.length == store.length then
      (.notFound, store)
    else
      (.success, after)

/-- The partial-update object built by `PATCH /update/:id` (index.js lines
95-101).  A `none` field is a key absent from `update`. -/
structure UpdateObj where
  task : Option String
  completed : Option Bool
  priority : Option String
deriving DecidableEq, Repr

/-- Construction of the `update` object from the request body (index.js lines
95-101): `task` is trimmed when present; `completed` is coerced with `!!`;
`priority` is lowercased and kept only when it is in the enum. -/
def mkUpdate (bodyTask bodyCompleted bodyPriority : JSValue) : UpdateObj :=
  { task :=
      match bodyTask with
      | .undefined => none
      | v => some (jsTrim (jsToString v))
    completed :=
      match bodyCompleted with
      | .undefined => none
      | v => some (jsTruthy v)
    priority :=
      match bodyPriority with
      | .undefined => none
      | v =>
        let p := jsToLower (jsToString v)
        if priorityEnum.contains p then some p else none }

/-- Emptiness test `Object.keys(update).length === 0` (index.js line 103). -/
def UpdateObj.isEmpty (u : UpdateObj) : Bool :=
  u.task == none && u.completed == none && u.priority == none

/-- The merge `Object.assign(\x7b\x7d, t, update)` (index.js line 115): keys
present in `update` win, the others keep the value from `t`; `_id` is never in
`update`. -/
def applyUpdate (u : UpdateObj) (t : Todo) : Todo :=
  { _id := t._id
    task := u.task.getD t.task
    priority := u.priority.getD t.priority
    completed :=
      match u.completed with
      | some b => some b
      | none => t.completed }

/-- Response of `PATCH /update/:id`.  On success the handler responds with
`inMemoryTodos.find(...)`, which in JS may be `undefined`, hence the
`Option Todo` payload. -/
inductive UpdateResult where
  | badRequest (error : String)
  | notFound
  | ok (todo : Option Todo)
deriving DecidableEq, Repr

/-- The `PATCH /update/:id` handler on the ephemeral store (index.js lines
92-125): build `update`; 400 when it has no keys; map over the store replacing
the todos with `String(t._id) === String(id)` by the merged record, setting
`found`; 404 when nothing matched; otherwise respond with the first match in
the new store. -/
def patchUpdate (store : List Todo) (id : String)
    (bodyTask bodyCompleted bodyPriority : JSValue) :
    UpdateResult × List Todo :=
  let update := mkUpdate bodyTask bodyCompleted bodyPriority
  if update.isEmpty then
    (.badRequest "nothing to update", store)
  else
    let found := store.any (fun t => toString t._id == toString id)
    let mapped := store.map
      (fun t => if toString t._id == toString id then applyUpdate update t else t)
    if !found then
      (.notFound, mapped)
    else
      (.ok (mapped.find? (fun t => toString t._id == toString id)), mapped)

/-- One client request against the ephemeral store, for stating reachability
invariants.  `add` carries the `Date.now()` value observed by the handler. -/
inductive Op where
  | add (now : Nat) (task priority : JSValue)
  | del (id : String)
  | upd (id : String) (bodyTask bodyCompleted bodyPriority : JSValue)
deriving DecidableEq, Repr

/-- The store after handling one request (response discarded). -/
def stepStore (store : List Todo) (op : Op) : List Todo :=
  match op with
  | .add now task priority => (postAdd store now task priority).2
  | .del id => (deleteTodo store id).2
  | .upd id bt bc bp => (patchUpdate store id bt bc bp).2

/-- The ephemeral store reached from the empty initial store (`inMemoryTodos
= []`) by a sequence of requests. -/
def runOps (ops : List Op) : List Todo := ops.foldl stepStore []

/-- The id tokens assigned by the `add` requests of a sequence, in order:
`POST /add` on the ephemeral store sets `_id = String(Date.now())`. -/
def addIds (ops : List Op) : List String :=
  ops.filterMap (fun op =>
    match op with
    | .add now _ _ => some (toString now)
    | _ => none)

/-- A request is task-safe when, if it is an update carrying a `task` key,
that task is not blank after trimming.  (The handler itself never checks
this.) -/
def updTaskNonBlank : Op → Bool
  | .upd _ bodyTask _ _ => bodyTask == .undefined || jsTrim (jsToString bodyTask) != ""
  | _ => true

/-! Helper lemmas. -/

/-- Strings are their own string coercion. -/
theorem toString_string (s : String) : toString s = s := rfl

/-- A prefix of a list that is unchanged by `dropWhile` is itself unchanged by
`dropWhile`. -/
theorem dropWhile_eq_self_of_leading {α : Type} {p : α → Bool} {r m : List α}
    (hm : m.dropWhile p = m) (h : r <+: m) : r.dropWhile p = r := by
  cases r with
  | nil => rfl
  | cons a t =>
    obtain ⟨u, hu⟩ := h
    have ha : ¬ p a = true := by
      have h0 := List.dropWhile_eq_self_iff.mp (hu ▸ hm) (by simp)
      simpa using h0
    exact List.dropWhile_cons_of_neg ha

/-- Trimming character lists is idempotent. -/
theorem trimChars_idem (l : List Char) : trimChars (trimChars l) = trimChars l := by
  unfold trimChars
  rw [dropWhile_eq_self_of_leading (List.dropWhile_idempotent wsChar l)
      (List.rdropWhile_prefix wsChar (l.dropWhile wsChar)),
    List.rdropWhile_idempotent]

/-- JS trimming is idempotent. -/
theorem jsTrim_idem (s : String) : jsTrim (jsTrim s) = jsTrim s := by
  show String.mk (trimChars (trimChars s.data)) = String.mk (trimChars s.data)
  exact congrArg String.mk (trimChars_idem s.data)

/-- A string with a non-blank trim is itself non-empty. -/
theorem ne_empty_of_jsTrim_ne {s : String} (h : jsTrim s ≠ "") : s ≠ "" := by
  intro he
  exact h (by rw [he]; decide)

/-- An update object with no keys makes `PATCH /update/:id` answer 400 and
leave the store untouched. -/
theorem patch_of_isEmpty (store : List Todo) (id : String) (bt bc bp : JSValue)
    (h : (mkUpdate bt bc bp).isEmpty = true) :
    patchUpdate store id bt bc bp = (.badRequest "nothing to update", store) := by
  simp [patchUpdate, h]

/-- A priority whose lowercased coercion is outside the enum contributes no
`priority` key to the update object. -/
theorem mkUpdate_priority_invalid (bt bc bp : JSValue)
    (h : priorityEnum.contains (jsToLower (jsToString bp)) = false) :
    (mkUpdate bt bc bp).priority = none := by
  cases bp <;> simp_all [mkUpdate]

/-- C7: a create request whose task is absent, or whose task is a string that
is blank after trimming, fails with the 400 ValidationError
`task is required` and leaves the store unchanged. -/
theorem C7_create_blank_task_rejected (store : List Todo) (now : Nat)
    (task priority : JSValue)
    (h : task = .undefined ∨ ∃ s, task = .str s ∧ jsTrim s = "") :
    postAdd store now task priority = (.badRequest "task is required", store) := by
  rcases h with rfl | ⟨s, rfl, hs⟩
  · simp [postAdd, jsTruthy]
  · simp [postAdd, jsToString, hs]

/-- Witness for C7: creating with the whitespace-only task fails with 400 on
the empty store. -/
theorem C7_witness :
    postAdd [] 5 (.str "   ") .undefined = (.badRequest "task is required", []) :=
  C7_create_blank_task_rejected [] 5 (.str "   ") .undefined
    (Or.inr ⟨"   ", rfl, by decide⟩)

/-- C8: an update request in which no field is recognized as applicable (task
and completed absent, priority absent or invalid) fails with the 400
ValidationError `nothing to update` and leaves the store unchanged. -/
theorem C8_empty_update_rejected (store : List Todo) (id : String)
    (bt bc bp : JSValue)
    (ht : bt = .undefined) (hc : bc = .undefined)
    (hp : bp = .undefined ∨ priorityEnum.contains (jsToLower (jsToString bp)) = false) :
    patchUpdate store id bt bc bp = (.badRequest "nothing to update", store) := by
  subst ht hc
  refine patch_of_isEmpty store id _ _ _ ?_
  rcases hp with rfl | hp
  · rfl
  · have h1 : (mkUpdate .undefined .undefined bp).task = none := rfl
    have h2 : (mkUpdate .undefined .undefined bp).completed = none := rfl
    simp [UpdateObj.isEmpty, h1, h2, mkUpdate_priority_invalid _ _ _ hp]

/-- Witness for C8: the empty body `\x7b\x7d` is rejected with 400. -/
theorem C8_witness :
    patchUpdate [⟨"1", "buy", "medium", none⟩] "1" .undefined .undefined .undefined =
      (.badRequest "nothing to update", [⟨"1", "buy", "medium", none⟩]) :=
  C8_empty_update_rejected [⟨"1", "buy", "medium", none⟩] "1"
    .undefined .undefined .undefined rfl rfl (Or.inl rfl)

/-- C10: a present `completed` field is coerced with `!!`, i.e. JS truthiness:
the stored flag is exactly the truthiness of the body value, the non-empty
string "false" included; `false`, `0`, the empty string, `null` and `NaN` all
yield `false`. -/
theorem C10_completed_truthiness (t : Todo) (v : JSValue) (hv : v ≠ .undefined) :
    (mkUpdate .undefined v .undefined).completed = some (jsTruthy v) ∧
    (applyUpdate (mkUpdate .undefined v .undefined) t).completed = some (jsTruthy v) ∧
    jsTruthy (.str "false") = true ∧
    jsTruthy (.bool false) = false ∧
    jsTruthy (.num 0) = false ∧
    jsTruthy (.str "") = false ∧
    jsTruthy .null = false ∧
    jsTruthy .nan = false := by
  have h1 : (mkUpdate .undefined v .undefined).completed = some (jsTruthy v) := by
    cases v
    case undefined => exact absurd rfl hv
    all_goals rfl
  exact ⟨h1, by simp [applyUpdate, h1], by decide, by decide, by decide, by decide,
    by decide, by decide⟩

/-- Witness for C10 at the string "false": the stored flag becomes `true`. -/
theorem C10_witness :
    (mkUpdate .undefined (.str "false") .undefined).completed =
      some (jsTruthy (.str "false")) ∧
    (applyUpdate (mkUpdate .undefined (.str "false") .undefined)
        ⟨"1", "buy", "medium", none⟩).completed = some (jsTruthy (.str "false")) ∧
    jsTruthy (.str "false") = true ∧
    jsTruthy (.bool false) = false ∧
    jsTruthy (.num 0) = false ∧
    jsTruthy (.str "") = false ∧
    jsTruthy .null = false ∧
    jsTruthy .nan = false :=
  C10_completed_truthiness ⟨"1", "buy", "medium", none⟩ (.str "false") (by decide)

/-- A todo whose id differs from the requested one is kept by the delete
filter. -/
theorem delete_pred_true {t : Todo} {id : String} (h : t._id ≠ id) :
    (t._id != id && toString t._id != toString id) = true := by
  simp [toString_string, h]

/-- Deleting an id that matches no stored todo answers 404 and keeps the
store. -/
theorem deleteTodo_notFound_of_absent (s : List Todo) (id : String)
    (hid : id ≠ "") (habs : ∀ t ∈ s, t._id ≠ id) :
    deleteTodo s id = (.notFound, s) := by
  have hfil : s.filter (fun t => t._id != id && toString t._id != toString id) = s :=
    List.filter_eq_self.mpr (fun t ht => delete_pred_true (habs t ht))
  simp [deleteTodo, hid, hfil]

/-- After a successful delete of `id`, no stored todo carries `id` any
more. -/
theorem deleteTodo_success_absent (prev : List Todo) (id : String) (s : List Todo)
    (h : deleteTodo prev id = (.success, s)) : ∀ t ∈ s, t._id ≠ id := by
  unfold deleteTodo at h
  by_cases hid : id = ""
  · simp [hid] at h
  · simp only [beq_iff_eq, hid, if_false] at h
    split at h
    · simp at h
    · rw [Prod.mk.injEq] at h
      obtain ⟨-, rfl⟩ := h
      intro t ht
      have hkeep := (List.mem_filter.mp ht).2
      simp only [Bool.and_eq_true, bne_iff_ne, ne_eq, toString_string] at hkeep
      exact hkeep.1

/-- C5: for a (non-empty) id matching no stored todo — in particular after a
successful delete of that id — the delete operation and an update carrying at
least one recognized field both answer 404 `Not found` and leave the store
unchanged. -/
theorem C5_missing_id_notFound (s : List Todo) (id : String) (bt bc bp : JSValue)
    (hid : id ≠ "")
    (habs : (∀ t ∈ s, t._id ≠ id) ∨ ∃ prev, deleteTodo prev id = (.success, s))
    (hupd : (mkUpdate bt bc bp).isEmpty = false) :
    deleteTodo s id = (.notFound, s) ∧ patchUpdate s id bt bc bp = (.notFound, s) := by
  have habs' : ∀ t ∈ s, t._id ≠ id := by
    rcases habs with h | ⟨prev, hprev⟩
    · exact h
    · exact deleteTodo_success_absent prev id s hprev
  refine ⟨deleteTodo_notFound_of_absent s id hid habs', ?_⟩
  have hpred : ∀ t ∈ s, ¬ (toString t._id = toString id) := by
    intro t ht
    simp only [toString_string]
    exact habs' t ht
  have hfound : (s.any fun t => toString t._id == toString id) = false := by
    rw [List.any_eq_false]
    intro t ht
    simpa using hpred t ht
  have hmap : s.map (fun t => if toString t._id = toString id
      then applyUpdate (mkUpdate bt bc bp) t else t) = s :=
    (List.map_congr_left (fun t ht => by simp [hpred t ht])).trans (List.map_id s)
  simp [patchUpdate, hupd, hfound, hmap]

/-- Witness for C5: id "2" is absent from the one-element store; delete and a
task-bearing update both answer 404. -/
theorem C5_witness :
    deleteTodo [⟨"1", "buy", "medium", none⟩] "2" =
      (.notFound, [⟨"1", "buy", "medium", none⟩]) ∧
    patchUpdate [⟨"1", "buy", "medium", none⟩] "2" (.str "x") .undefined .undefined =
      (.notFound, [⟨"1", "buy", "medium", none⟩]) :=
  C5_missing_id_notFound [⟨"1", "buy", "medium", none⟩] "2"
    (.str "x") .undefined .undefined (by decide) (Or.inl (by decide)) (by decide)

/-- C6: create-side priority normalization — absent priorities default to
`medium`, values outside the enum (after lowercasing) fall back to `medium`,
values inside the enum are kept lowercased (so "HIGH" becomes "high"), and a
create with a non-blank task is never rejected because of its priority. -/
theorem C6_create_priority_normalization (store : List Todo) (now : Nat)
    (taskStr : String) (p pbad pgood : JSValue)
    (htask : jsTrim taskStr ≠ "")
    (hbad : priorityEnum.contains (jsToLower (jsToString pbad)) = false)
    (hgood : pgood ≠ .undefined)
    (hg : priorityEnum.contains (jsToLower (jsToString pgood)) = true) :
    addPriority .undefined = "medium" ∧
    addPriority pbad = "medium" ∧
    addPriority pgood = jsToLower (jsToString pgood) ∧
    addPriority (.str "HIGH") = "high" ∧
    (postAdd store now (.str taskStr) p).1 =
      .ok ⟨toString now, jsTrim taskStr, addPriority p, none⟩ := by
  have hne : taskStr ≠ "" := ne_empty_of_jsTrim_ne htask
  have hbadm : addPriority pbad = "medium" := by
    cases pbad <;> simp_all [addPriority]
  have hgoodm : addPriority pgood = jsToLower (jsToString pgood) := by
    have hne2 : jsToLower (jsToString pgood) ≠ "" := by
      intro h
      rw [h] at hg
      exact absurd hg (by decide)
    cases pgood
    case undefined => exact absurd rfl hgood
    all_goals simp_all [addPriority]
  have hpost : (postAdd store now (.str taskStr) p).1 =
      .ok ⟨toString now, jsTrim taskStr, addPriority p, none⟩ := by
    simp [postAdd, jsToString, jsTruthy, hne, htask]
  exact ⟨rfl, hbadm, hgoodm, by decide, hpost⟩

/-- Witness for C6: "urgent" falls back to medium, "HIGH" normalizes to high,
and the create with task "Buy milk" and priority "HIGH" succeeds. -/
theorem C6_witness :
    addPriority .undefined = "medium" ∧
    addPriority (.str "urgent") = "medium" ∧
    addPriority (.str "HIGH") = jsToLower (jsToString (.str "HIGH")) ∧
    addPriority (.str "HIGH") = "high" ∧
    (postAdd [] 3 (.str "Buy milk") (.str "HIGH")).1 =
      .ok ⟨toString 3, jsTrim "Buy milk", addPriority (.str "HIGH"), none⟩ :=
  C6_create_priority_normalization [] 3 "Buy milk" (.str "HIGH") (.str "urgent")
    (.str "HIGH") (by decide) (by decide) (by decide) (by decide)

/-- C9: a successful update rewrites only the todos carrying the requested id
— the store keeps its length, every todo keeps its id, todos with another id
are untouched, and any field absent from the update object keeps its prior
value. -/
theorem C9_update_frame (s : List Todo) (id : String) (bt bc bp : JSValue)
    (r : Option Todo) (s' : List Todo) (i : Nat) (hi : i < s.length) (hi' : i < s'.length)
    (h : patchUpdate s id bt bc bp = (.ok r, s')) :
    s'.length = s.length ∧
    (s'.get ⟨i, hi'⟩)._id = (s.get ⟨i, hi⟩)._id ∧
    ((s.get ⟨i, hi⟩)._id ≠ id → s'.get ⟨i, hi'⟩ = s.get ⟨i, hi⟩) ∧
    ((mkUpdate bt bc bp).task = none →
      (s'.get ⟨i, hi'⟩).task = (s.get ⟨i, hi⟩).task) ∧
    ((mkUpdate bt bc bp).completed = none →
      (s'.get ⟨i, hi'⟩).completed = (s.get ⟨i, hi⟩).completed) ∧
    ((mkUpdate bt bc bp).priority = none →
      (s'.get ⟨i, hi'⟩).priority = (s.get ⟨i, hi⟩).priority) := by
  have hs' : s' = s.map (fun t => if toString t._id == toString id
      then applyUpdate (mkUpdate bt bc bp) t else t) := by
    simp only [patchUpdate] at h
    split at h
    · exact absurd (congrArg Prod.fst h) (by simp)
    · split at h
      · exact absurd (congrArg Prod.fst h) (by simp)
      · exact (congrArg Prod.snd h).symm
  subst hs'
  have hget : ∀ hq : i < (s.map (fun t => if toString t._id == toString id
      then applyUpdate (mkUpdate bt bc bp) t else t)).length,
      (s.map (fun t => if toString t._id == toString id
        then applyUpdate (mkUpdate bt bc bp) t else t)).get ⟨i, hq⟩ =
      (fun t => if toString t._id == toString id
        then applyUpdate (mkUpdate bt bc bp) t else t) (s.get ⟨i, hi⟩) := by
    intro hq
    simp [List.get_eq_getElem]
  refine ⟨by simp, ?_, ?_, ?_, ?_, ?_⟩ <;> (rw [hget hi']; beta_reduce)
  · by_cases hc : (toString (s.get ⟨i, hi⟩)._id == toString id) = true
    · rw [if_pos hc]
      rfl
    · rw [if_neg hc]
  · intro hne
    have hc : ¬ ((toString (s.get ⟨i, hi⟩)._id == toString id) = true) := by
      simpa [toString_string] using hne
    rw [if_neg hc]
  · intro hu
    by_cases hc : (toString (s.get ⟨i, hi⟩)._id == toString id) = true
    · rw [if_pos hc]
      simp [applyUpdate, hu]
    · rw [if_neg hc]
  · intro hu
    by_cases hc : (toString (s.get ⟨i, hi⟩)._id == toString id) = true
    · rw [if_pos hc]
      simp [applyUpdate, hu]
    · rw [if_neg hc]
  · intro hu
    by_cases hc : (toString (s.get ⟨i, hi⟩)._id == toString id) = true
    · rw [if_pos hc]
      simp [applyUpdate, hu]
    · rw [if_neg hc]

/-- Witness for C9: setting `completed` on todo "1" leaves todo "2" (index 1)
fully unchanged. -/
theorem C9_witness :
    ([⟨"1", "buy", "medium", some true⟩, ⟨"2", "x", "low", none⟩] : List Todo).length =
      ([⟨"1", "buy", "medium", none⟩, ⟨"2", "x", "low", none⟩] : List Todo).length ∧
    (([⟨"1", "buy", "medium", some true⟩, ⟨"2", "x", "low", none⟩] : List Todo).get
        ⟨1, by decide⟩)._id =
      (([⟨"1", "buy", "medium", none⟩, ⟨"2", "x", "low", none⟩] : List Todo).get
        ⟨1, by decide⟩)._id ∧
    ((([⟨"1", "buy", "medium", none⟩, ⟨"2", "x", "low", none⟩] : List Todo).get
        ⟨1, by decide⟩)._id ≠ "1" →
      ([⟨"1", "buy", "medium", some true⟩, ⟨"2", "x", "low", none⟩] : List Todo).get
          ⟨1, by decide⟩ =
        ([⟨"1", "buy", "medium", none⟩, ⟨"2", "x", "low", none⟩] : List Todo).get
          ⟨1, by decide⟩) ∧
    ((mkUpdate .undefined (.bool true) .undefined).task = none →
      (([⟨"1", "buy", "medium", some true⟩, ⟨"2", "x", "low", none⟩] : List Todo).get
          ⟨1, by decide⟩).task =
        (([⟨"1", "buy", "medium", none⟩, ⟨"2", "x", "low", none⟩] : List Todo).get
          ⟨1, by decide⟩).task) ∧
    ((mkUpdate .undefined (.bool true) .undefined).completed = none →
      (([⟨"1", "buy", "medium", some true⟩, ⟨"2", "x", "low", none⟩] : List Todo).get
          ⟨1, by decide⟩).completed =
        (([⟨"1", "buy", "medium", none⟩, ⟨"2", "x", "low", none⟩] : List Todo).get
          ⟨1, by decide⟩).completed) ∧
    ((mkUpdate .undefined (.bool true) .undefined).priority = none →
      (([⟨"1", "buy", "medium", some true⟩, ⟨"2", "x", "low", none⟩] : List Todo).get
          ⟨1, by decide⟩).priority =
        (([⟨"1", "buy", "medium", none⟩, ⟨"2", "x", "low", none⟩] : List Todo).get
          ⟨1, by decide⟩).priority) :=
  C9_update_frame [⟨"1", "buy", "medium", none⟩, ⟨"2", "x", "low", none⟩] "1"
    .undefined (.bool true) .undefined (some ⟨"1", "buy", "medium", some true⟩)
    [⟨"1", "buy", "medium", some true⟩, ⟨"2", "x", "low", none⟩] 1
    (by decide) (by decide) (by decide)

/-- An update whose object carries no `priority` key leaves every stored
priority unchanged, whatever branch the handler takes. -/
theorem patch_priority_map (s : List Todo) (id : String) (bt bc bp : JSValue)
    (h : (mkUpdate bt bc bp).priority = none) :
    ((patchUpdate s id bt bc bp).2).map Todo.priority = s.map Todo.priority := by
  have hm : ((s.map (fun t => if toString t._id == toString id
      then applyUpdate (mkUpdate bt bc bp) t else t)).map Todo.priority) =
      s.map Todo.priority := by
    rw [List.map_map]
    refine List.map_congr_left (fun t ht => ?_)
    by_cases hc : (toString t._id == toString id) = true
    · simp [Function.comp, hc, applyUpdate, h]
    · simp [Function.comp, hc]
  simp only [patchUpdate]
  split
  · rfl
  · split
    · exact hm
    · exact hm

/-- C1 as stated is false: a PATCH whose body holds only the invalid priority
"urgent" is answered 400 `nothing to update`, not 200 with the record. -/
theorem C1_counterexample :
    patchUpdate [⟨"1", "buy", "medium", none⟩] "1" .undefined .undefined (.str "urgent") =
      (.badRequest "nothing to update", [⟨"1", "buy", "medium", none⟩]) := by decide

/-- C1 amended: an invalid priority value contributes no key to the update
object; when it is the only field of the body the request is rejected with
400 and the store is unchanged, and in any case the stored priorities never
change. -/
theorem C1_amended (s : List Todo) (id : String) (bt bc bp : JSValue)
    (_hbp : bp ≠ .undefined)
    (hinv : priorityEnum.contains (jsToLower (jsToString bp)) = false) :
    (mkUpdate bt bc bp).priority = none ∧
    (bt = .undefined → bc = .undefined →
      patchUpdate s id bt bc bp = (.badRequest "nothing to update", s)) ∧
    ((patchUpdate s id bt bc bp).2).map Todo.priority = s.map Todo.priority := by
  have hpr := mkUpdate_priority_invalid bt bc bp hinv
  refine ⟨hpr, ?_, patch_priority_map s id bt bc bp hpr⟩
  rintro rfl rfl
  refine patch_of_isEmpty s id _ _ _ ?_
  have h1 : (mkUpdate .undefined .undefined bp).task = none := rfl
  have h2 : (mkUpdate .undefined .undefined bp).completed = none := rfl
  simp [UpdateObj.isEmpty, h1, h2, hpr]

/-- Witness for the amended C1 at the store holding todo "1" and the body
priority "urgent". -/
theorem C1_amended_witness :
    (mkUpdate .undefined .undefined (.str "urgent")).priority = none ∧
    (JSValue.undefined = .undefined → JSValue.undefined = .undefined →
      patchUpdate [⟨"1", "buy", "medium", none⟩] "1" .undefined .undefined
          (.str "urgent") =
        (.badRequest "nothing to update", [⟨"1", "buy", "medium", none⟩])) ∧
    ((patchUpdate [⟨"1", "buy", "medium", none⟩] "1" .undefined .undefined
        (.str "urgent")).2).map Todo.priority =
      ([⟨"1", "buy", "medium", none⟩] : List Todo).map Todo.priority :=
  C1_amended [⟨"1", "buy", "medium", none⟩] "1" .undefined .undefined (.str "urgent")
    (by decide) (by decide)

/-- C2 as stated is false for the ephemeral backend: the created in-memory
record carries no `completed` key at all (its `completed` is absent, not
`false`). -/
theorem C2_counterexample :
    postAdd [] 1000 (.str "Buy milk") .undefined =
      (.ok ⟨"1000", "Buy milk", "medium", none⟩,
        [⟨"1000", "Buy milk", "medium", none⟩]) ∧
    (⟨"1000", "Buy milk", "medium", none⟩ : Todo).completed ≠ some false := by decide

/-- C2 amended: a create with a non-blank task succeeds in both backends and
returns exactly the stored record — with the assigned id, the trimmed task
and the normalized priority; the persistent record (re-read from the store)
carries `completed = false`, while the ephemeral record has no `completed`
field. -/
theorem C2_amended (store : List Todo) (db : List DbTodo) (now : Nat)
    (newId : String) (taskStr : String) (priority : JSValue)
    (htask : jsTrim taskStr ≠ "")
    (hfresh : ∀ t ∈ db, t._id ≠ newId) :
    postAdd store now (.str taskStr) priority =
      (.ok ⟨toString now, jsTrim taskStr, addPriority priority, none⟩,
        store ++ [⟨toString now, jsTrim taskStr, addPriority priority, none⟩]) ∧
    postAddDb db newId (.str taskStr) priority =
      (.ok ⟨newId, jsTrim taskStr, false, addPriority priority⟩,
        db ++ [⟨newId, jsTrim taskStr, false, addPriority priority⟩]) ∧
    addPriority priority ∈ priorityEnum := by
  have hne : taskStr ≠ "" := ne_empty_of_jsTrim_ne htask
  refine ⟨?_, ?_, ?_⟩
  · simp [postAdd, jsToString, jsTruthy, hne, htask]
  · have hdb : (db.find? (fun t => t._id == newId)) = none := by
      rw [List.find?_eq_none]
      intro t ht
      simp [hfresh t ht]
    simp [postAddDb, jsToString, jsTruthy, hne, htask, hdb]
  · match priority with
    | .undefined => exact (by decide : "medium" ∈ priorityEnum)
    | .null | .nan | .bool _ | .num _ | .str _ =>
      simp only [addPriority]
      split
      · next hcond =>
        rw [Bool.and_eq_true] at hcond
        exact List.mem_of_elem_eq_true hcond.2
      · exact (by decide : "medium" ∈ priorityEnum)

/-- Witness for the amended C2: creating " Buy milk " with no priority on the
empty stores. -/
theorem C2_amended_witness :
    postAdd [] 1000 (.str " Buy milk ") .undefined =
      (.ok ⟨toString 1000, jsTrim " Buy milk ", addPriority .undefined, none⟩,
        [] ++ [⟨toString 1000, jsTrim " Buy milk ", addPriority .undefined, none⟩]) ∧
    postAddDb [] "a1" (.str " Buy milk ") .undefined =
      (.ok ⟨"a1", jsTrim " Buy milk ", false, addPriority .undefined⟩,
        [] ++ [⟨"a1", jsTrim " Buy milk ", false, addPriority .undefined⟩]) ∧
    addPriority .undefined ∈ priorityEnum :=
  C2_amended [] [] 1000 "a1" " Buy milk " .undefined (by decide)
    (by intro t ht; exact absurd ht (List.not_mem_nil t))

/-- C3 as stated is false: updating todo "1" with the whitespace-only task
"   " stores the empty task. -/
theorem C3_counterexample :
    runOps [.add 1 (.str "Buy milk") .undefined,
        .upd "1" (.str "   ") .undefined .undefined] =
      [⟨"1", "", "medium", none⟩] := by decide

/-- One benign request keeps every stored task trimmed and non-empty. -/
theorem taskOk_step (s : List Todo) (op : Op)
    (hop : updTaskNonBlank op = true)
    (hinv : ∀ t ∈ s, jsTrim t.task = t.task ∧ t.task ≠ "") :
    ∀ t ∈ stepStore s op, jsTrim t.task = t.task ∧ t.task ≠ "" := by
  cases op with
  | add now task priority =>
    intro t ht
    simp only [stepStore, postAdd] at ht
    split at ht
    · exact hinv t ht
    · next hguard =>
      rcases List.mem_append.mp ht with hmem | hmem
      · exact hinv t hmem
      · have hblank : ¬ (jsTrim (jsToString task) = "") := by
          intro hbl
          apply hguard
          rw [hbl]
          simp
        have ht' : t = ⟨toString now, jsTrim (jsToString task),
            addPriority priority, none⟩ := by simpa using hmem
        subst ht'
        exact ⟨jsTrim_idem (jsToString task), hblank⟩
  | del id =>
    intro t ht
    simp only [stepStore, deleteTodo] at ht
    split at ht
    · exact hinv t ht
    · split at ht
      · exact hinv t ht
      · exact hinv t (List.mem_filter.mp ht).1
  | upd id bt bc bp =>
    intro t ht
    simp only [stepStore, patchUpdate] at ht
    have hmapped : t ∈ s.map (fun u => if toString u._id == toString id
        then applyUpdate (mkUpdate bt bc bp) u else u) → jsTrim t.task = t.task ∧ t.task ≠ "" := by
      intro hm
      obtain ⟨u, hu, hut⟩ := List.mem_map.mp hm
      by_cases hc : (toString u._id == toString id) = true
      · rw [if_pos hc] at hut
        subst hut
        have hne2 : bt = .undefined ∨ jsTrim (jsToString bt) ≠ "" := by
          simp only [updTaskNonBlank] at hop
          rw [Bool.or_eq_true] at hop
          rcases hop with h1 | h2
          · exact Or.inl (by simpa using h1)
          · exact Or.inr (by simpa using h2)
        have htask : (applyUpdate (mkUpdate bt bc bp) u).task = u.task ∨
            (applyUpdate (mkUpdate bt bc bp) u).task = jsTrim (jsToString bt) ∧
              jsTrim (jsToString bt) ≠ "" := by
          rcases hne2 with rfl | hne
          · exact Or.inl rfl
          · cases bt with
            | undefined => exact Or.inl rfl
            | null => exact Or.inr ⟨rfl, hne⟩
            | nan => exact Or.inr ⟨rfl, hne⟩
            | bool b => exact Or.inr ⟨rfl, hne⟩
            | num n => exact Or.inr ⟨rfl, hne⟩
            | str s => exact Or.inr ⟨rfl, hne⟩
        rcases htask with heq | ⟨heq, hne⟩
        · rw [heq]
          exact hinv u hu
        · rw [heq]
          exact ⟨jsTrim_idem (jsToString bt), hne⟩
      · rw [if_neg hc] at hut
        subst hut
        exact hinv u hu
    split at ht
    · exact hinv t ht
    · split at ht
      · exact hmapped ht
      · exact hmapped ht

/-- Running only benign requests from a store of trimmed non-empty tasks
keeps every task trimmed and non-empty. -/
theorem taskOk_fold (ops : List Op) :
    ∀ s, (∀ op ∈ ops, updTaskNonBlank op = true) →
      (∀ t ∈ s, jsTrim t.task = t.task ∧ t.task ≠ "") →
      ∀ t ∈ ops.foldl stepStore s, jsTrim t.task = t.task ∧ t.task ≠ "" := by
  induction ops with
  | nil => exact fun s _ hinv => hinv
  | cons op rest ih =>
    intro s hops hinv
    exact ih (stepStore s op) (fun o ho => hops o (List.mem_cons_of_mem op ho))
      (taskOk_step s op (hops op (List.mem_cons_self op rest)) hinv)

/-- C3 amended: in every store reachable by creates, deletes and updates
whose task field (when present) is non-blank after trimming, every stored
task is non-empty and not whitespace-only; the handler itself does not
enforce this for updates — an update with a whitespace-only task stores an
empty task (see the counterexample). -/
theorem C3_amended (ops : List Op) (t : Todo)
    (hops : ∀ op ∈ ops, updTaskNonBlank op = true)
    (ht : t ∈ runOps ops) :
    t.task ≠ "" ∧ jsTrim t.task ≠ "" := by
  have h := taskOk_fold ops [] hops (by intro u hu; exact absurd hu (List.not_mem_nil u)) t ht
  exact ⟨h.2, fun hbl => h.2 (h.1.symm.trans hbl)⟩

/-- Witness for the amended C3: after a create and a benign task update, the
stored task "x" is non-empty and non-blank. -/
theorem C3_amended_witness :
    (⟨"1", "x", "medium", none⟩ : Todo).task ≠ "" ∧
    jsTrim (⟨"1", "x", "medium", none⟩ : Todo).task ≠ "" :=
  C3_amended [.add 1 (.str "Buy milk") .undefined,
      .upd "1" (.str " x ") .undefined .undefined]
    ⟨"1", "x", "medium", none⟩ (by decide) (by decide)

/-- An update never changes the sequence of stored ids. -/
theorem patch_ids (s : List Todo) (id : String) (bt bc bp : JSValue) :
    ((patchUpdate s id bt bc bp).2).map Todo._id = s.map Todo._id := by
  have hm : (s.map (fun t => if toString t._id == toString id
      then applyUpdate (mkUpdate bt bc bp) t else t)).map Todo._id =
      s.map Todo._id := by
    rw [List.map_map]
    refine List.map_congr_left (fun t ht => ?_)
    by_cases hc : (toString t._id == toString id) = true
    · simp [Function.comp, hc, applyUpdate]
    · simp [Function.comp, hc]
  simp only [patchUpdate]
  split
  · rfl
  · split
    · exact hm
    · exact hm

/-- A delete only removes stored ids. -/
theorem delete_ids_sublist (s : List Todo) (id : String) :
    List.Sublist (((deleteTodo s id).2).map Todo._id) (s.map Todo._id) := by
  simp only [deleteTodo]
  split
  · exact List.Sublist.refl _
  · split
    · exact List.Sublist.refl _
    · exact List.Sublist.map Todo._id (List.filter_sublist s)

/-- A create either keeps the stored ids (rejected task) or appends exactly
the token `String(Date.now())`. -/
theorem add_ids (s : List Todo) (now : Nat) (task priority : JSValue) :
    ((postAdd s now task priority).2).map Todo._id = s.map Todo._id ∨
    ((postAdd s now task priority).2).map Todo._id =
      s.map Todo._id ++ [toString now] := by
  simp only [postAdd]
  split
  · exact Or.inl rfl
  · exact Or.inr (by simp)

/-- Distinct pending creation tokens keep the stored ids pairwise distinct
through any request sequence. -/
theorem nodup_ids_fold (ops : List Op) :
    ∀ s : List Todo, (s.map Todo._id).Nodup →
      (∀ x ∈ s.map Todo._id, x ∉ addIds ops) →
      (addIds ops).Nodup →
      ((ops.foldl stepStore s).map Todo._id).Nodup := by
  induction ops with
  | nil => exact fun s h _ _ => h
  | cons op rest ih =>
    intro s hnd hdisj hops
    cases op with
    | add now task priority =>
      have hcons : addIds (Op.add now task priority :: rest) =
          toString now :: addIds rest := rfl
      rw [hcons] at hdisj hops
      have hnotin : toString now ∉ addIds rest := (List.nodup_cons.mp hops).1
      have hrest : (addIds rest).Nodup := (List.nodup_cons.mp hops).2
      have hstep : stepStore s (.add now task priority) =
          (postAdd s now task priority).2 := rfl
      rcases add_ids s now task priority with heq | heq
      · refine ih _ ?_ ?_ hrest
        · rw [hstep, heq]
          exact hnd
        · intro x hx hmem
          rw [hstep, heq] at hx
          exact hdisj x hx (List.mem_cons_of_mem _ hmem)
      · refine ih _ ?_ ?_ hrest
        · rw [hstep, heq, List.nodup_append]
          refine ⟨hnd, List.nodup_singleton _, ?_⟩
          intro x hx hx2
          exact hdisj x hx (by rw [List.mem_singleton.mp hx2]; exact List.mem_cons_self _ _)
        · intro x hx hmem
          rw [hstep, heq] at hx
          rcases List.mem_append.mp hx with h1 | h1
          · exact hdisj x h1 (List.mem_cons_of_mem _ hmem)
          · rw [List.mem_singleton.mp h1] at hmem
            exact hnotin hmem
    | del id =>
      have hsub : List.Sublist ((stepStore s (.del id)).map Todo._id)
          (s.map Todo._id) := delete_ids_sublist s id
      exact ih _ (List.Nodup.sublist hsub hnd)
        (fun x hx => hdisj x (hsub.subset hx)) hops
    | upd id bt bc bp =>
      have hids : (stepStore s (.upd id bt bc bp)).map Todo._id = s.map Todo._id :=
        patch_ids s id bt bc bp
      refine ih _ ?_ ?_ hops
      · rw [hids]
        exact hnd
      · intro x hx
        rw [hids] at hx
        exact hdisj x hx

/-- C4 as stated is false: two creates at the same `Date.now()` timestamp
assign the same id, so the store holds the duplicate id "5" twice. -/
theorem C4_counterexample :
    (runOps [.add 5 (.str "a") .undefined, .add 5 (.str "b") .undefined]).map Todo._id =
      ["5", "5"] ∧
    ¬ ((runOps [.add 5 (.str "a") .undefined,
        .add 5 (.str "b") .undefined]).map Todo._id).Nodup := by decide

/-- C4 amended: stored ids are pairwise distinct in every state reachable by
a request sequence whose creates carry pairwise distinct timestamp tokens;
two creates at the same timestamp violate the invariant (see the
counterexample). -/
theorem C4_amended (ops : List Op) (h : (addIds ops).Nodup) :
    ((runOps ops).map Todo._id).Nodup :=
  nodup_ids_fold ops [] (by simp) (by simp) h

/-- Witness for the amended C4: two creates at distinct timestamps keep the
ids distinct. -/
theorem C4_amended_witness :
    ((runOps [.add 5 (.str "a") .undefined, .add 6 (.str "b") .undefined]).map
      Todo._id).Nodup :=
  C4_amended [.add 5 (.str "a") .undefined, .add 6 (.str "b") .undefined] (by decide)
